import Mathlib

/-!
Verification development for the BigCommerce / Stripe financial-reconciliation
calculator.  The repository contains two lineages of the same script:
`src/calc.js` and `src/unnamed/part_000` (a later refactor).  Both are embedded
here, shallowly: JS numbers are modelled by exact rationals (the spec describes
the values as decimals), JS strings by Lean strings manipulated through their
character lists, the remote invoice-lookup collaborator by a function
`String -> Except Unit (List Invoice)` (`Except.error` models a thrown
network/API error), and the surrounding `try`/`catch` blocks by explicit
`Except` propagation.  A separate NaN-propagating number type `JSNum` models
the floating-point behaviour of the proration routine on degenerate
(all-zero-quantity) invoices, where JS produces `NaN`.
-/

namespace StripeCalc

/-- One row of the settlement report, after CSV decoding and numeric
defaulting (`parseFloat(x) || 0`), as consumed by `main`. -/
structure SettlementRecord where
  customerId : String
  customerEmail : String
  reportingCategory : String
  gross : ℚ
  fee : ℚ
deriving DecidableEq

/-- One line item of a looked-up invoice: `line.price.product`,
`line.quantity`, `line.amount` in the source. -/
structure InvoiceLine where
  productId : String
  quantity : ℕ
  amount : ℚ
deriving DecidableEq

/-- An invoice (`invoice.lines.data` in the source). -/
structure Invoice where
  lines : List InvoiceLine
deriving DecidableEq

/-- The invoice-lookup collaborator: `stripe.invoices.list({customer, limit: 1})`
returns `invoices.data` (a list, possibly empty); `Except.error` models a
thrown network/API error. -/
abbrev Lookup := String → Except Unit (List Invoice)

instance instDecEqExcept {ε α : Type} [DecidableEq ε] [DecidableEq α] :
    DecidableEq (Except ε α) := fun a b =>
  match a, b with
  | .ok x, .ok y =>
    if h : x = y then .isTrue (by rw [h])
    else .isFalse (by intro hc; injection hc; exact h (by assumption))
  | .error e, .error f =>
    if h : e = f then .isTrue (by rw [h])
    else .isFalse (by intro hc; injection hc; exact h (by assumption))
  | .ok _, .error _ => .isFalse (by intro hc; injection hc)
  | .error _, .ok _ => .isFalse (by intro hc; injection hc)

/-! ## String helpers (JS string primitives, modelled on character lists) -/

/-- JS `String.prototype.split` with a one-character separator. -/
def splitChar (sep : Char) (s : String) : List String :=
  (s.data.splitOn sep).map (fun cs => ⟨cs⟩)

/-- JS `String.prototype.trim`: drop whitespace from both ends. -/
def trimStr (s : String) : String :=
  ⟨((s.data.dropWhile Char.isWhitespace).reverse.dropWhile Char.isWhitespace).reverse⟩

/-- JS `String.prototype.toLowerCase` (ASCII, as in the source's email data). -/
def lowerStr (s : String) : String :=
  ⟨s.data.map Char.toLower⟩

/-- JS `str.replace(/['"]+/g, "")`: remove every apostrophe (code 39) and
double-quote (code 34) character, wherever it occurs. -/
def stripQuotes (s : String) : String :=
  ⟨s.data.filter (fun c => ¬(c = Char.ofNat 39 ∨ c = Char.ofNat 34))⟩

/-- JS `String.prototype.includes pat`: some suffix of `s` starts with `pat`. -/
def containsSub (s pat : String) : Bool :=
  (List.range (s.data.length + 1)).any (fun i => pat.data.isPrefixOf (s.data.drop i))

/-! ## `shouldIgnoreCustomer` (identical in both source files) -/

/-- `shouldIgnoreCustomer(email)`: `!email` is only falsy-true for the empty
string here; otherwise the lowercased email is searched for the three fixed
suppression markers. -/
def shouldIgnoreCustomer (email : String) : Bool :=
  if email = "" then false
  else
    let lowerEmail := lowerStr email
    containsSub lowerEmail "razoyo" || containsSub lowerEmail "automaticffl" ||
      containsSub lowerEmail "refactored.group"

/-! ## `parseCSV` (identical in both source files) -/

/-- `columns[index] ? columns[index].trim() : ""`: a missing or empty cell
yields the empty string, any other cell is trimmed. -/
def getCol (columns : List String) (i : ℕ) : String :=
  trimStr (columns.getD i "")

/-- Assoc-list update modelling JS object assignment `row[k] = v`
(overwrites an existing key, appends a new one). -/
def setField (m : List (String × String)) (k v : String) : List (String × String) :=
  match m with
  | [] => [(k, v)]
  | (k2, v2) :: rest => if k2 = k then (k, v) :: rest else (k2, v2) :: setField rest k v

/-- `headers.forEach((header, index) => row[header.trim()] = ...)`. -/
def buildRow (headers columns : List String) : List (String × String) :=
  headers.enum.foldl (fun row p => setField row (trimStr p.2) (getCol columns p.1)) []

/-- `parseCSV(data)`: split on newlines, drop blank lines, strip quote
characters from every cell of every line, first line is the header row.
On empty input the source dereferences `lines[0]` of an empty array and
throws; this is the `Except.error` case. -/
def parseCSV (data : String) : Except Unit (List (List (String × String))) :=
  let lines := (splitChar (Char.ofNat 10) data).filter (fun l => ¬(trimStr l = ""))
  match lines with
  | [] => .error ()
  | l0 :: rest =>
    let headers := (splitChar (Char.ofNat 44) l0).map stripQuotes
    .ok (rest.map (fun line =>
      let columns := (splitChar (Char.ofNat 44) line).map stripQuotes
      buildRow headers columns))

/-! ## `calculateProportionalFees` (identical in both source files),
in exact rational arithmetic -/

/-- First-occurrence read of a JS object field, `feesPerProduct[p] || 0`. -/
def lookupFee (m : List (String × ℚ)) (k : String) : ℚ :=
  match m.find? (fun p => p.1 = k) with
  | some p => p.2
  | none => 0

/-- First-occurrence write of a JS object field. -/
def setFee (m : List (String × ℚ)) (k : String) (v : ℚ) : List (String × ℚ) :=
  match m with
  | [] => [(k, v)]
  | (k2, v2) :: rest => if k2 = k then (k, v) :: rest else (k2, v2) :: setFee rest k v

/-- `invoice.lines.data.reduce((sum, line) => sum + line.quantity, 0)`. -/
def totalQuantity (invoice : Invoice) : ℕ :=
  invoice.lines.foldl (fun sum line => sum + line.quantity) 0

/-- `calculateProportionalFees(invoice, totalFee)` over exact rationals:
`feesPerProduct[productId] = (feesPerProduct[productId] || 0)
 + totalFee * (quantity / totalQuantity)`. -/
def calculateProportionalFees (invoice : Invoice) (totalFee : ℚ) : List (String × ℚ) :=
  let tq : ℚ := (totalQuantity invoice : ℚ)
  invoice.lines.foldl (fun m line =>
    setFee m line.productId
      (lookupFee m line.productId + totalFee * ((line.quantity : ℚ) / tq))) []

/-- Sum of the values of a fee allocation (`sum(FeeAllocation.values())`). -/
def valueSum (m : List (String × ℚ)) : ℚ :=
  (m.map (fun p => p.2)).sum

/-! ## The pre-pass aggregate loops of `main` (identical in both source files) -/

/-- `if (row.reporting_category === "charge") grossAmountBeforeFees += gross`. -/
def grossAmountBeforeFees (rows : List SettlementRecord) : ℚ :=
  rows.foldl (fun acc r => if r.reportingCategory = "charge" then acc + r.gross else acc) 0

/-- `if (grossValue < 0) netBalanceChange += grossValue` (the first use of the
`netBalanceChange` variable, before it is reassigned). -/
def negativeGrossSum (rows : List SettlementRecord) : ℚ :=
  rows.foldl (fun acc r => if r.gross < 0 then acc + r.gross else acc) 0

/-- `totalFee -= feeValue` over every row (fees are negative in the CSV, the
source negates the sum to get a positive fee total). -/
def totalFeeInitial (rows : List SettlementRecord) : ℚ :=
  rows.foldl (fun acc r => acc - r.fee) 0

/-- `netBalanceChange = grossAmountBeforeFees + netBalanceChange + totalFee`. -/
def netBalanceChange (rows : List SettlementRecord) : ℚ :=
  grossAmountBeforeFees rows + negativeGrossSum rows + totalFeeInitial rows

/-! ## `getProductFees` and the aggregation pass of `src/calc.js` -/

/-- Result of `getProductFees`: the source also returns the invoice itself
when one was found. -/
structure ProductFeesResult where
  hasExcludedProduct : Bool
  feesPerProduct : List (String × ℚ)
  invoice : Option Invoice
deriving DecidableEq

/-- `getProductFees(stripe, customerId, totalFee, ammoProductId)`: guards an
empty customer id, looks up the most recent invoice, and catches any thrown
lookup error, returning the same default as the no-invoice case. -/
def getProductFees (lookup : Lookup) (customerId : String) (totalFee : ℚ)
    (ammoProductId : String) : ProductFeesResult :=
  if customerId = "" then ⟨false, [], none⟩
  else
    match lookup customerId with
    | .error _ => ⟨false, [], none⟩
    | .ok [] => ⟨false, [], none⟩
    | .ok (invoice :: _) =>
      let hasExcludedProduct := invoice.lines.any (fun item => item.productId = ammoProductId)
      ⟨hasExcludedProduct, calculateProportionalFees invoice totalFee, some invoice⟩

/-- The body of `for (const row of rows)` in `src/calc.js` lines 174-230,
acting on the shared accumulator pair `(totalGross, totalFee)`. -/
def aggStep (lookup : Lookup) (ammoProductId : String) (customerIds : List String)
    (st : ℚ × ℚ) (r : SettlementRecord) : ℚ × ℚ :=
  if shouldIgnoreCustomer r.customerEmail then st
  else if r.customerId = "" then (st.1 + r.gross, st.2 + r.fee)
  else if customerIds.contains r.customerId then
    let st1 : ℚ × ℚ := (st.1, st.2 + r.fee)
    let res := getProductFees lookup r.customerId r.fee ammoProductId
    if !res.hasExcludedProduct then (st1.1 + r.gross, st1.2 + r.fee)
    else
      match res.invoice with
      | some invoice =>
        invoice.lines.foldl (fun s line =>
          if ¬(line.productId = ammoProductId) then
            (s.1 + line.amount, s.2 + lookupFee res.feesPerProduct line.productId)
          else s) st1
      | none => st1
  else st

/-- The aggregation pass: a fold of `aggStep` over the rows.  In the source
the accumulator is the pair of mutable variables `(totalGross, totalFee)`;
`totalFee` already holds `totalFeeInitial` when the pass starts. -/
def aggPass (lookup : Lookup) (ammoProductId : String) (customerIds : List String)
    (rows : List SettlementRecord) (init : ℚ × ℚ) : ℚ × ℚ :=
  rows.foldl (aggStep lookup ammoProductId customerIds) init

/-! ## The second (ammo-adjustment) pass of `src/calc.js` (lines 241-270):
note its `stripe.invoices.list` call is NOT wrapped in a local try/catch, so a
thrown lookup error propagates to the outer handler. -/

/-- One iteration of the second pass of `src/calc.js`, acting on the running
`bigCommerceGrossSales` value. -/
def pass2Step (lookup : Lookup) (ammoProductId : String) (customerIds : List String)
    (acc : ℚ) (r : SettlementRecord) : Except Unit ℚ :=
  if shouldIgnoreCustomer r.customerEmail then .ok acc
  else if r.customerId = "" then .ok acc
  else if customerIds.contains r.customerId then
    match lookup r.customerId with
    | .error e => .error e
    | .ok [] => .ok acc
    | .ok (invoice :: _) =>
      if invoice.lines.any (fun line => line.productId = ammoProductId) then
        .ok (invoice.lines.foldl (fun b line =>
          if line.productId = ammoProductId then b - line.amount else b) acc)
      else .ok acc
  else .ok acc

/-- The second pass of `src/calc.js`: sequential, aborting on the first
uncaught lookup error. -/
def pass2Calc (lookup : Lookup) (ammoProductId : String) (customerIds : List String) :
    List SettlementRecord → ℚ → Except Unit ℚ
  | [], acc => .ok acc
  | r :: rest, acc =>
    match pass2Step lookup ammoProductId customerIds acc r with
    | .error e => .error e
    | .ok acc2 => pass2Calc lookup ammoProductId customerIds rest acc2

/-- The amount the second pass of `src/calc.js` subtracts for one record
(or the error it throws). -/
def pass2Delta (lookup : Lookup) (ammoProductId : String) (customerIds : List String)
    (r : SettlementRecord) : Except Unit ℚ :=
  if shouldIgnoreCustomer r.customerEmail then .ok 0
  else if r.customerId = "" then .ok 0
  else if customerIds.contains r.customerId then
    match lookup r.customerId with
    | .error e => .error e
    | .ok [] => .ok 0
    | .ok (invoice :: _) =>
      if invoice.lines.any (fun line => line.productId = ammoProductId) then
        .ok (invoice.lines.foldl (fun b line =>
          if line.productId = ammoProductId then b + line.amount else b) 0)
      else .ok 0
  else .ok 0

/-- The total amount the second pass of `src/calc.js` subtracts from
`bigCommerceGrossSales` (this is the ammo adjustment actually applied). -/
def ammoSubCalc (lookup : Lookup) (ammoProductId : String) (customerIds : List String) :
    List SettlementRecord → ℚ → Except Unit ℚ
  | [], acc => .ok acc
  | r :: rest, acc =>
    match pass2Delta lookup ammoProductId customerIds r with
    | .error e => .error e
    | .ok d => ammoSubCalc lookup ammoProductId customerIds rest (acc + d)

/-- The four figures printed by `src/calc.js`. -/
structure CalcOutput where
  grossBeforeFees : ℚ
  netBalanceChange : ℚ
  bigCommerceGrossSales : ℚ
  bigCommerceNetDisbursed : ℚ
deriving DecidableEq

/-- The core of `main` in `src/calc.js`: pre-pass totals, the aggregation
pass (whose fee accumulator is the same mutable `totalFee` variable that
already holds the negated CSV fee sum), the second ammo pass, and the final
derivation.  An uncaught error in the second pass reaches the outer
`catch` and no figures are produced. -/
def mainCalc (lookup : Lookup) (ammoProductId : String) (customerIds : List String)
    (rows : List SettlementRecord) : Except Unit CalcOutput :=
  let gbf := grossAmountBeforeFees rows
  let nbc := netBalanceChange rows
  let st := aggPass lookup ammoProductId customerIds rows (0, totalFeeInitial rows)
  match pass2Calc lookup ammoProductId customerIds rows (gbf - st.1) with
  | .error e => .error e
  | .ok bgs => .ok ⟨gbf, nbc, bgs, nbc - st.1 - st.2⟩

/-! ## The `src/unnamed/part_000` lineage -/

/-- The body of the STEP 4 loop of `part_000` (lines 280-328), acting on the
pair `(nonBigCommerceGross, nonBigCommerceFees)`.  This lineage performs no
invoice lookup in the aggregation pass: exclusion-list customers keep all
products, and their raw gross/fee are accumulated directly. -/
def aggStep000 (customerIds : List String) (st : ℚ × ℚ) (r : SettlementRecord) : ℚ × ℚ :=
  if shouldIgnoreCustomer r.customerEmail then st
  else if r.customerId = "" then (st.1 + r.gross, st.2 + r.fee)
  else if customerIds.contains r.customerId then (st.1 + r.gross, st.2 + r.fee)
  else st

/-- One iteration of the STEP 6 ammo loop of `part_000` (lines 403-447),
acting on the pair `(bigCommerceGross, ammoProductsTotal)`.  It skips
suppressed emails and exclusion-list customers, looks up platform customers
(unguarded: a thrown error propagates), and moves `line.amount / 100` per
ammo line from `bigCommerceGross` to `ammoProductsTotal`. -/
def pass2Step000 (lookup : Lookup) (ammoProductId : String) (customerIds : List String)
    (st : ℚ × ℚ) (r : SettlementRecord) : Except Unit (ℚ × ℚ) :=
  if shouldIgnoreCustomer r.customerEmail || customerIds.contains r.customerId then .ok st
  else if r.customerId = "" then .ok st
  else
    match lookup r.customerId with
    | .error e => .error e
    | .ok [] => .ok st
    | .ok (invoice :: _) =>
      if invoice.lines.any (fun line => line.productId = ammoProductId) then
        .ok (invoice.lines.foldl (fun s line =>
          if line.productId = ammoProductId then
            (s.1 - line.amount / 100, s.2 + line.amount / 100)
          else s) st)
      else .ok st

/-- The STEP 6 ammo loop of `part_000`. -/
def pass2_000 (lookup : Lookup) (ammoProductId : String) (customerIds : List String) :
    List SettlementRecord → ℚ × ℚ → Except Unit (ℚ × ℚ)
  | [], st => .ok st
  | r :: rest, st =>
    match pass2Step000 lookup ammoProductId customerIds st r with
    | .error e => .error e
    | .ok st2 => pass2_000 lookup ammoProductId customerIds rest st2

/-- The figures printed by `part_000`. -/
structure Output000 where
  allTransactionsGross : ℚ
  netBalanceChange : ℚ
  nonBigCommerceGross : ℚ
  nonBigCommerceFees : ℚ
  ammoProductsTotal : ℚ
  bigCommerceGross : ℚ
  bigCommerceNet : ℚ
deriving DecidableEq

/-- The core of `main` in `part_000`: pre-pass totals (same loops as
`src/calc.js`, but `allTransactionsFees` is a variable of its own), the
lookup-free aggregation pass, the ammo pass over platform customers, and the
final derivation `bigCommerceNet = netBalanceChange - nonBigCommerceGross -
nonBigCommerceFees`. -/
def main000 (lookup : Lookup) (ammoProductId : String) (customerIds : List String)
    (rows : List SettlementRecord) : Except Unit Output000 :=
  let allGross := grossAmountBeforeFees rows
  let nbc := netBalanceChange rows
  let st := rows.foldl (aggStep000 customerIds) (0, 0)
  match pass2_000 lookup ammoProductId customerIds rows (allGross - st.1, 0) with
  | .error e => .error e
  | .ok st2 => .ok ⟨allGross, nbc, st.1, st.2, st2.2, st2.1, nbc - st.1 - st.2⟩

/-- Modelled from the spec (claim C6 wording): the "ammo adjustment on
platform records" — the total amount of excluded-product lines found on
invoices of non-suppressed records whose customer id is present and NOT on
the exclusion list.  Defined to compare the claim against the source, which
in `src/calc.js` applies its second-pass adjustment to exclusion-list
records instead. -/
def specAmmoAdjustmentOnPlatformRecords (lookup : Lookup) (ammoProductId : String)
    (customerIds : List String) (rows : List SettlementRecord) : ℚ :=
  rows.foldl (fun acc r =>
    if shouldIgnoreCustomer r.customerEmail then acc
    else if r.customerId = "" then acc
    else if customerIds.contains r.customerId then acc
    else
      match lookup r.customerId with
      | .ok (invoice :: _) =>
        if invoice.lines.any (fun line => line.productId = ammoProductId) then
          acc + invoice.lines.foldl (fun b line =>
            if line.productId = ammoProductId then b + line.amount else b) 0
        else acc
      | _ => acc) 0

/-! ## Floating-point (NaN-propagating) model of the proration routine,
for the degenerate all-zero-quantity case -/

/-- A JS number: finite, one of the infinities, or NaN. -/
inductive JSNum where
  | num (q : ℚ)
  | posInf
  | negInf
  | nan
deriving DecidableEq

/-- JS division of two finite numbers: `0 / 0` is `NaN`, `x / 0` is a signed
infinity for `x` nonzero. -/
def jsDiv (a b : ℚ) : JSNum :=
  if b = 0 then (if a = 0 then .nan else if 0 < a then .posInf else .negInf)
  else .num (a / b)

/-- JS multiplication of a finite number by a possibly non-finite one. -/
def jsMul (c : ℚ) (x : JSNum) : JSNum :=
  match x with
  | .num a => .num (c * a)
  | .nan => .nan
  | .posInf => if c = 0 then .nan else if 0 < c then .posInf else .negInf
  | .negInf => if c = 0 then .nan else if 0 < c then .negInf else .posInf

/-- JS `x || 0` on an object field read: an absent field (`undefined`), `0`
and `NaN` are falsy and give `0`; any other number is returned unchanged. -/
def jsOrZero (x : Option JSNum) : JSNum :=
  match x with
  | none => .num 0
  | some (.num a) => .num a
  | some .nan => .num 0
  | some v => v

/-- JS addition with NaN and infinity propagation. -/
def jsAdd (x y : JSNum) : JSNum :=
  match x, y with
  | .num a, .num b => .num (a + b)
  | .nan, _ => .nan
  | _, .nan => .nan
  | .posInf, .negInf => .nan
  | .negInf, .posInf => .nan
  | .posInf, _ => .posInf
  | _, .posInf => .posInf
  | .negInf, _ => .negInf
  | _, .negInf => .negInf

/-- First-occurrence read of a JS object field, the `JSNum` version. -/
def lookupFeeJS (m : List (String × JSNum)) (k : String) : Option JSNum :=
  (m.find? (fun p => p.1 = k)).map (fun p => p.2)

/-- First-occurrence write of a JS object field, the `JSNum` version. -/
def setFeeJS (m : List (String × JSNum)) (k : String) (v : JSNum) : List (String × JSNum) :=
  match m with
  | [] => [(k, v)]
  | (k2, v2) :: rest => if k2 = k then (k, v) :: rest else (k2, v2) :: setFeeJS rest k v

/-- `calculateProportionalFees` under JS floating-point semantics: the same
fold, with the division `quantity / totalQuantity` producing `NaN` when
`totalQuantity` is zero, silently propagated into every allocation.  The
return type has no error channel: the source signals nothing. -/
def calculateProportionalFeesJS (invoice : Invoice) (totalFee : ℚ) : List (String × JSNum) :=
  let tq : ℚ := (totalQuantity invoice : ℚ)
  invoice.lines.foldl (fun m line =>
    setFeeJS m line.productId
      (jsAdd (jsOrZero (lookupFeeJS m line.productId))
        (jsMul totalFee (jsDiv (line.quantity : ℚ) tq)))) []

/-! ## Lemmas about the fee prorator -/

lemma valueSum_nil : valueSum [] = 0 := rfl

lemma valueSum_cons (k : String) (v : ℚ) (m : List (String × ℚ)) :
    valueSum ((k, v) :: m) = v + valueSum m := by
  simp [valueSum]

lemma valueSum_setFee (m : List (String × ℚ)) (k : String) (v : ℚ) :
    valueSum (setFee m k v) = valueSum m - lookupFee m k + v := by
  induction m with
  | nil => simp [setFee, valueSum, lookupFee, List.find?]
  | cons p rest ih =>
    obtain ⟨k2, v2⟩ := p
    by_cases h : k2 = k
    · subst h
      simp [setFee, valueSum_cons, lookupFee, List.find?]
      ring
    · simp only [setFee, if_neg h, valueSum_cons, ih]
      have hf : lookupFee ((k2, v2) :: rest) k = lookupFee rest k := by
        simp [lookupFee, List.find?, h]
      rw [hf]
      ring

lemma foldl_quantity (l : List InvoiceLine) :
    ∀ a : ℕ, l.foldl (fun s x => s + x.quantity) a = a + (l.map (fun x => x.quantity)).sum := by
  induction l with
  | nil => intro a; simp
  | cons x xs ih =>
    intro a
    simp only [List.foldl_cons, List.map_cons, List.sum_cons, ih]
    ring

lemma prorate_fold (fee tq : ℚ) (lines : List InvoiceLine) :
    ∀ m : List (String × ℚ),
      valueSum (lines.foldl (fun m line =>
        setFee m line.productId
          (lookupFee m line.productId + fee * ((line.quantity : ℚ) / tq))) m)
        = valueSum m + fee * ((lines.map (fun l => (l.quantity : ℚ))).sum / tq) := by
  induction lines with
  | nil => intro m; simp
  | cons line rest ih =>
    intro m
    simp only [List.foldl_cons, List.map_cons, List.sum_cons, ih, valueSum_setFee]
    ring

/-- C2: for every invoice whose total quantity is positive, the proportional
fee allocation (accumulating, not overwriting, repeated product ids) has
values summing exactly to the total fee, in exact rational arithmetic. -/
theorem proration_values_sum_to_totalFee (invoice : Invoice) (totalFee : ℚ)
    (h : 0 < totalQuantity invoice) :
    valueSum (calculateProportionalFees invoice totalFee) = totalFee := by
  have hq : ((totalQuantity invoice : ℚ)) = (invoice.lines.map (fun l => (l.quantity : ℚ))).sum := by
    have := foldl_quantity invoice.lines 0
    simp only [totalQuantity, this, Nat.zero_add]
    rw [Nat.cast_list_sum, List.map_map]
    rfl
  have htq : ((totalQuantity invoice : ℚ)) ≠ 0 := by
    exact_mod_cast Nat.pos_iff_ne_zero.mp h
  unfold calculateProportionalFees
  rw [prorate_fold totalFee ((totalQuantity invoice : ℚ)) invoice.lines []]
  rw [← hq, valueSum_nil, div_self htq, mul_one, zero_add]

/-- Witness for C2 at a concrete two-line invoice with total fee 10. -/
theorem proration_values_sum_to_totalFee_witness :
    0 < totalQuantity ⟨[⟨"A", 1, 50⟩, ⟨"ammo", 1, 50⟩]⟩ ∧
      valueSum (calculateProportionalFees ⟨[⟨"A", 1, 50⟩, ⟨"ammo", 1, 50⟩]⟩ 10) = 10 :=
  ⟨by decide, proration_values_sum_to_totalFee ⟨[⟨"A", 1, 50⟩, ⟨"ammo", 1, 50⟩]⟩ 10 (by decide)⟩

/-- C10: a record whose customer email is the empty string is never
suppressed (`!email` short-circuits to `false`), whatever its other fields
hold, so such rows fall through to the other classifications. -/
theorem empty_email_never_suppressed (r : SettlementRecord) (h : r.customerEmail = "") :
    shouldIgnoreCustomer r.customerEmail = false := by
  rw [h]
  rfl

/-- Witness for C10 at a concrete record with empty email, nonempty id. -/
theorem empty_email_never_suppressed_witness :
    shouldIgnoreCustomer (SettlementRecord.mk "cus_1" "" "charge" 100 (-3)).customerEmail
      = false :=
  empty_email_never_suppressed ⟨"cus_1", "", "charge", 100, (-3)⟩ rfl

/-- C3 (evaluation at the claim's input): for an exclusion-list record with
CSV fee 10 whose invoice has lines A and ammo (quantity 1, amount 50 each),
the prorator returns exactly the claimed allocation (A: 5, ammo: 5), but the
record's contribution to the exclusion-bucket accumulators is gross 50 and
fee 15, not fee 5: the loop adds the raw CSV fee (`totalFee += feeValue`)
before the per-line prorated fees, double-counting the fee. -/
theorem exclusion_ammo_record_contribution_eval :
    calculateProportionalFees ⟨[⟨"A", 1, 50⟩, ⟨"ammo", 1, 50⟩]⟩ 10 = [("A", 5), ("ammo", 5)] ∧
      aggPass
        (fun c => if c = "cust1" then .ok [⟨[⟨"A", 1, 50⟩, ⟨"ammo", 1, 50⟩]⟩] else .ok [])
        "ammo" ["cust1"] [⟨"cust1", "", "charge", 100, 10⟩] (0, 0) = (50, 15) := by
  constructor
  · simp [calculateProportionalFees, totalQuantity, setFee, lookupFee, List.find?]
    norm_num
  · simp [aggPass, aggStep, shouldIgnoreCustomer, getProductFees, calculateProportionalFees,
      totalQuantity, setFee, lookupFee, List.find?, List.contains, List.elem]
    norm_num

/-- C5 (evaluation at the failing input): on an invoice whose lines all have
quantity 0, the JS-semantics prorator silently returns a NaN allocation for
every product — no error is signalled (the function has no error channel). -/
theorem proration_zero_quantities_silent_nan :
    calculateProportionalFeesJS ⟨[⟨"A", 0, 50⟩, ⟨"B", 0, 50⟩]⟩ 10
      = [("A", JSNum.nan), ("B", JSNum.nan)] := by
  decide

/-! ## Lemmas about suppressed records -/

lemma aggStep_suppressed (lookup : Lookup) (ammo : String) (ids : List String)
    (st : ℚ × ℚ) (r : SettlementRecord) (h : shouldIgnoreCustomer r.customerEmail = true) :
    aggStep lookup ammo ids st r = st := by
  simp [aggStep, h]

lemma pass2Step_suppressed (lookup : Lookup) (ammo : String) (ids : List String)
    (acc : ℚ) (r : SettlementRecord) (h : shouldIgnoreCustomer r.customerEmail = true) :
    pass2Step lookup ammo ids acc r = .ok acc := by
  simp [pass2Step, h]

lemma aggStep000_suppressed (ids : List String) (st : ℚ × ℚ) (r : SettlementRecord)
    (h : shouldIgnoreCustomer r.customerEmail = true) :
    aggStep000 ids st r = st := by
  simp [aggStep000, h]

lemma pass2Step000_suppressed (lookup : Lookup) (ammo : String) (ids : List String)
    (st : ℚ × ℚ) (r : SettlementRecord) (h : shouldIgnoreCustomer r.customerEmail = true) :
    pass2Step000 lookup ammo ids st r = .ok st := by
  simp [pass2Step000, h]

lemma pass2Calc_middle (lookup : Lookup) (ammo : String) (ids : List String)
    (r : SettlementRecord) (h : shouldIgnoreCustomer r.customerEmail = true) :
    ∀ (l1 l2 : List SettlementRecord) (acc : ℚ),
      pass2Calc lookup ammo ids (l1 ++ r :: l2) acc = pass2Calc lookup ammo ids (l1 ++ l2) acc := by
  intro l1
  induction l1 with
  | nil =>
    intro l2 acc
    simp only [List.nil_append, pass2Calc, pass2Step_suppressed lookup ammo ids acc r h]
  | cons a l1 ih =>
    intro l2 acc
    simp only [List.cons_append, pass2Calc]
    cases pass2Step lookup ammo ids acc a with
    | error e => rfl
    | ok b => exact ih l2 b

lemma pass2_000_middle (lookup : Lookup) (ammo : String) (ids : List String)
    (r : SettlementRecord) (h : shouldIgnoreCustomer r.customerEmail = true) :
    ∀ (l1 l2 : List SettlementRecord) (st : ℚ × ℚ),
      pass2_000 lookup ammo ids (l1 ++ r :: l2) st = pass2_000 lookup ammo ids (l1 ++ l2) st := by
  intro l1
  induction l1 with
  | nil =>
    intro l2 st
    simp only [List.nil_append, pass2_000, pass2Step000_suppressed lookup ammo ids st r h]
  | cons a l1 ih =>
    intro l2 st
    simp only [List.cons_append, pass2_000]
    cases pass2Step000 lookup ammo ids st a with
    | error e => rfl
    | ok b => exact ih l2 b

lemma gbf_shift (l : List SettlementRecord) :
    ∀ a : ℚ, l.foldl (fun acc r => if r.reportingCategory = "charge" then acc + r.gross else acc) a
      = a + l.foldl (fun acc r => if r.reportingCategory = "charge" then acc + r.gross else acc) 0 := by
  induction l with
  | nil => intro a; simp
  | cons r rest ih =>
    intro a
    simp only [List.foldl_cons]
    rw [ih (if r.reportingCategory = "charge" then a + r.gross else a),
      ih (if r.reportingCategory = "charge" then (0 : ℚ) + r.gross else 0)]
    by_cases hc : r.reportingCategory = "charge" <;> simp [hc] <;> ring

lemma tfi_shift (l : List SettlementRecord) :
    ∀ a : ℚ, l.foldl (fun acc r => acc - r.fee) a = a + l.foldl (fun acc r => acc - r.fee) 0 := by
  induction l with
  | nil => intro a; simp
  | cons r rest ih =>
    intro a
    simp only [List.foldl_cons]
    rw [ih (a - r.fee), ih (0 - r.fee)]
    ring

/-- C1 (amended): a record whose email carries a suppression marker is
skipped by the per-record aggregation pass and by the ammo-adjustment pass of
both lineages — wherever it sits in the report and even when its customer id
is on the exclusion list (the list is arbitrary here, so suppression takes
precedence) — but it is NOT absent from the pre-pass totals: it still adds
its gross to `grossAmountBeforeFees` (when its category is "charge") and its
fee to the negated fee sum, hence also to `netBalanceChange`. -/
theorem suppressed_record_no_bucket_contribution (lookup : Lookup) (ammo : String)
    (ids : List String) (l1 l2 : List SettlementRecord) (r : SettlementRecord)
    (init : ℚ × ℚ) (acc : ℚ) (h : shouldIgnoreCustomer r.customerEmail = true) :
    aggPass lookup ammo ids (l1 ++ r :: l2) init = aggPass lookup ammo ids (l1 ++ l2) init ∧
      pass2Calc lookup ammo ids (l1 ++ r :: l2) acc = pass2Calc lookup ammo ids (l1 ++ l2) acc ∧
      (l1 ++ r :: l2).foldl (aggStep000 ids) init = (l1 ++ l2).foldl (aggStep000 ids) init ∧
      pass2_000 lookup ammo ids (l1 ++ r :: l2) init = pass2_000 lookup ammo ids (l1 ++ l2) init ∧
      grossAmountBeforeFees (l1 ++ r :: l2)
        = grossAmountBeforeFees (l1 ++ l2)
          + (if r.reportingCategory = "charge" then r.gross else 0) ∧
      totalFeeInitial (l1 ++ r :: l2) = totalFeeInitial (l1 ++ l2) - r.fee := by
  refine ⟨?_, pass2Calc_middle lookup ammo ids r h l1 l2 acc, ?_,
    pass2_000_middle lookup ammo ids r h l1 l2 init, ?_, ?_⟩
  · simp only [aggPass, List.foldl_append, List.foldl_cons,
      aggStep_suppressed lookup ammo ids _ r h]
  · simp only [List.foldl_append, List.foldl_cons, aggStep000_suppressed ids _ r h]
  · simp only [grossAmountBeforeFees, List.foldl_append, List.foldl_cons]
    rw [gbf_shift l2, gbf_shift l2 (l1.foldl _ 0)]
    by_cases hc : r.reportingCategory = "charge" <;> simp [hc] <;> ring
  · simp only [totalFeeInitial, List.foldl_append, List.foldl_cons]
    rw [tfi_shift l2, tfi_shift l2 (l1.foldl _ 0)]
    ring

/-- Witness for C1's amended theorem at a concrete suppressed record whose
customer id is on the exclusion list. -/
theorem suppressed_record_no_bucket_contribution_witness :
    shouldIgnoreCustomer
        (SettlementRecord.mk "c1" "test@razoyo.com" "charge" 100 (-3)).customerEmail = true ∧
      aggPass (fun _ => .ok []) "ammo" ["c1"]
          ([] ++ (⟨"c1", "test@razoyo.com", "charge", 100, -3⟩ : SettlementRecord) :: [])
          (0, 0)
        = aggPass (fun _ => .ok []) "ammo" ["c1"] ([] ++ []) (0, 0) :=
  ⟨by decide,
    (suppressed_record_no_bucket_contribution (fun _ => .ok []) "ammo" ["c1"] [] []
      ⟨"c1", "test@razoyo.com", "charge", 100, -3⟩ (0, 0) 0 (by decide)).1⟩

/-- C1 (counterexample to the claim as stated): a suppressed "charge" record
with gross 100 still contributes to `grossAmountBeforeFees` — the pre-pass
total is 100 with the record present and 0 with it absent, so a suppressed
record does NOT contribute to "no aggregate total whatsoever". -/
theorem suppressed_record_still_in_pre_pass_totals :
    shouldIgnoreCustomer
        (SettlementRecord.mk "c1" "test@razoyo.com" "charge" 100 (-3)).customerEmail = true ∧
      grossAmountBeforeFees [⟨"c1", "test@razoyo.com", "charge", 100, -3⟩] = 100 ∧
      grossAmountBeforeFees [] = 0 ∧ (100 : ℚ) ≠ 0 := by
  refine ⟨by decide, ?_, rfl, by norm_num⟩
  simp [grossAmountBeforeFees]

/-! ## The collaborator is only ever called on nonempty customer ids:
every run is invariant under changing the lookup function at `""` -/

lemma getProductFees_congr (l1 l2 : Lookup) (h : ∀ c, ¬(c = "") → l1 c = l2 c)
    (c : String) (fee : ℚ) (ammo : String) :
    getProductFees l1 c fee ammo = getProductFees l2 c fee ammo := by
  unfold getProductFees
  by_cases hc : c = ""
  · simp [hc]
  · rw [h c hc]

lemma aggStep_congr (l1 l2 : Lookup) (h : ∀ c, ¬(c = "") → l1 c = l2 c)
    (ammo : String) (ids : List String) (st : ℚ × ℚ) (r : SettlementRecord) :
    aggStep l1 ammo ids st r = aggStep l2 ammo ids st r := by
  have hg := getProductFees_congr l1 l2 h r.customerId r.fee ammo
  simp only [aggStep, hg]

lemma aggPass_congr (l1 l2 : Lookup) (h : ∀ c, ¬(c = "") → l1 c = l2 c)
    (ammo : String) (ids : List String) (rows : List SettlementRecord) :
    ∀ init : ℚ × ℚ, aggPass l1 ammo ids rows init = aggPass l2 ammo ids rows init := by
  induction rows with
  | nil => intro init; rfl
  | cons r rest ih =>
    intro init
    simp only [aggPass, List.foldl_cons, aggStep_congr l1 l2 h ammo ids init r]
    exact ih (aggStep l2 ammo ids init r)

lemma pass2Step_congr (l1 l2 : Lookup) (h : ∀ c, ¬(c = "") → l1 c = l2 c)
    (ammo : String) (ids : List String) (acc : ℚ) (r : SettlementRecord) :
    pass2Step l1 ammo ids acc r = pass2Step l2 ammo ids acc r := by
  unfold pass2Step
  by_cases hid : r.customerId = ""
  · simp [hid]
  · rw [h r.customerId hid]

lemma pass2Calc_congr (l1 l2 : Lookup) (h : ∀ c, ¬(c = "") → l1 c = l2 c)
    (ammo : String) (ids : List String) (rows : List SettlementRecord) :
    ∀ acc : ℚ, pass2Calc l1 ammo ids rows acc = pass2Calc l2 ammo ids rows acc := by
  induction rows with
  | nil => intro acc; rfl
  | cons r rest ih =>
    intro acc
    simp only [pass2Calc, pass2Step_congr l1 l2 h ammo ids acc r]
    cases pass2Step l2 ammo ids acc r with
    | error e => rfl
    | ok b => exact ih b

lemma pass2Step000_congr (l1 l2 : Lookup) (h : ∀ c, ¬(c = "") → l1 c = l2 c)
    (ammo : String) (ids : List String) (st : ℚ × ℚ) (r : SettlementRecord) :
    pass2Step000 l1 ammo ids st r = pass2Step000 l2 ammo ids st r := by
  unfold pass2Step000
  by_cases hid : r.customerId = ""
  · simp [hid]
  · rw [h r.customerId hid]

lemma pass2_000_congr (l1 l2 : Lookup) (h : ∀ c, ¬(c = "") → l1 c = l2 c)
    (ammo : String) (ids : List String) (rows : List SettlementRecord) :
    ∀ st : ℚ × ℚ, pass2_000 l1 ammo ids rows st = pass2_000 l2 ammo ids rows st := by
  induction rows with
  | nil => intro st; rfl
  | cons r rest ih =>
    intro st
    simp only [pass2_000, pass2Step000_congr l1 l2 h ammo ids st r]
    cases pass2Step000 l2 ammo ids st r with
    | error e => rfl
    | ok b => exact ih b

/-- C8: no record with an empty customer id ever reaches the invoice
collaborator: a whole run of either lineage computes the same result under
any two lookup functions that agree on nonempty ids (so the lookup's
behaviour at `""` is never consulted), and a non-suppressed record with an
empty customer id has its gross and fee counted directly into the bucket
accumulators. -/
theorem empty_customer_never_looked_up (l1 l2 : Lookup) (ammo : String)
    (ids : List String) (rows : List SettlementRecord)
    (h : ∀ c, ¬(c = "") → l1 c = l2 c) :
    mainCalc l1 ammo ids rows = mainCalc l2 ammo ids rows ∧
      main000 l1 ammo ids rows = main000 l2 ammo ids rows ∧
      ∀ (st : ℚ × ℚ) (r : SettlementRecord),
        shouldIgnoreCustomer r.customerEmail = false → r.customerId = "" →
          aggStep l1 ammo ids st r = (st.1 + r.gross, st.2 + r.fee) := by
  refine ⟨?_, ?_, ?_⟩
  · simp only [mainCalc, aggPass_congr l1 l2 h ammo ids rows,
      pass2Calc_congr l1 l2 h ammo ids rows]
  · simp only [main000, pass2_000_congr l1 l2 h ammo ids rows]
  · intro st r hs hid
    simp [aggStep, hs, hid]

/-- Witness for C8: two lookups that differ only at the empty id (one throws
there) give identical results on a report consisting of one empty-id row. -/
theorem empty_customer_never_looked_up_witness :
    mainCalc (fun c => if c = "" then .error () else .ok []) "x" []
        [⟨"", "", "charge", 100, -3⟩]
      = mainCalc (fun _ => .ok []) "x" [] [⟨"", "", "charge", 100, -3⟩] :=
  (empty_customer_never_looked_up (fun c => if c = "" then .error () else .ok [])
    (fun _ => .ok []) "x" [] [⟨"", "", "charge", 100, -3⟩]
    (fun c hc => if_neg hc)).1

/-! ## Lookup failure: caught in the aggregation pass, fatal in the second pass -/

/-- C4 (amended): a thrown invoice lookup is recovered only inside
`getProductFees` (the aggregation pass), where it is treated exactly like
"no invoice found"; in the ammo-adjustment pass the same failure is not
caught locally — it propagates and the run produces no figures at all. -/
theorem lookup_failure_handling :
    (∀ (lk : Lookup) (c : String) (fee : ℚ) (ammo : String), lk c = .error () →
      getProductFees lk c fee ammo = getProductFees (fun _ => .ok []) c fee ammo) ∧
      (∀ (lk : Lookup) (ammo : String) (ids : List String) (r : SettlementRecord)
          (rest : List SettlementRecord) (acc : ℚ),
        shouldIgnoreCustomer r.customerEmail = false → ¬(r.customerId = "") →
          ids.contains r.customerId = true → lk r.customerId = .error () →
          pass2Calc lk ammo ids (r :: rest) acc = .error () ∧
            mainCalc lk ammo ids (r :: rest) = .error ()) := by
  constructor
  · intro lk c fee ammo herr
    unfold getProductFees
    by_cases hc : c = ""
    · simp [hc]
    · rw [herr]
  · intro lk ammo ids r rest acc hs hid hc herr
    have hp : ∀ b : ℚ, pass2Calc lk ammo ids (r :: rest) b = .error () := by
      intro b
      simp only [pass2Calc, pass2Step, hs, hid, hc, herr]
      simp
    refine ⟨hp acc, ?_⟩
    simp only [mainCalc, hp]

/-- Witness for C4's amended theorem: a concrete always-failing lookup is
recovered by `getProductFees` but aborts the whole `src/calc.js` run through
the second pass. -/
theorem lookup_failure_handling_witness :
    getProductFees (fun _ => .error ()) "c1" (-3) "x"
        = getProductFees (fun _ => .ok []) "c1" (-3) "x" ∧
      mainCalc (fun _ => .error ()) "x" ["c1"] [⟨"c1", "", "charge", 100, -3⟩]
        = .error () :=
  ⟨lookup_failure_handling.1 (fun _ => .error ()) "c1" (-3) "x" rfl,
    (lookup_failure_handling.2 (fun _ => .error ()) "x" ["c1"]
      ⟨"c1", "", "charge", 100, -3⟩ [] 0 (by decide) (by decide) (by decide) rfl).2⟩

/-- C4 (counterexample to the claim as stated): with one exclusion-list
record and a lookup that fails, the whole run of `src/calc.js` aborts
(`Except.error`), while the same run with a lookup returning "no invoices"
completes with figures — so a single failed lookup is NOT always recovered
locally. -/
theorem lookup_failure_aborts_run :
    mainCalc (fun _ => .error ()) "x" ["c1"] [⟨"c1", "", "charge", 100, -3⟩]
        = .error () ∧
      mainCalc (fun _ => .ok []) "x" ["c1"] [⟨"c1", "", "charge", 100, -3⟩]
        = .ok ⟨100, 103, 0, 6⟩ ∧
      (Except.error () : Except Unit CalcOutput) ≠ .ok ⟨100, 103, 0, 6⟩ := by
  refine ⟨?_, ?_, by intro hcon; cases hcon⟩
  · simp [mainCalc, aggPass, aggStep, shouldIgnoreCustomer, getProductFees, pass2Calc,
      pass2Step, grossAmountBeforeFees, negativeGrossSum, totalFeeInitial, netBalanceChange,
      List.contains, List.elem]
  · simp [mainCalc, aggPass, aggStep, shouldIgnoreCustomer, getProductFees, pass2Calc,
      pass2Step, grossAmountBeforeFees, negativeGrossSum, totalFeeInitial, netBalanceChange,
      List.contains, List.elem]
    norm_num

/-! ## Parser lemmas: every field value is a trim of a fully quote-stripped cell -/

lemma mem_setField (k v : String) (kv : String × String) :
    ∀ m : List (String × String), kv ∈ setField m k v → kv ∈ m ∨ kv = (k, v) := by
  intro m
  induction m with
  | nil =>
    intro hm
    simp only [setField, List.mem_singleton] at hm
    exact Or.inr hm
  | cons p rest ih =>
    obtain ⟨k2, v2⟩ := p
    intro hm
    by_cases h : k2 = k
    · simp only [setField, if_pos h] at hm
      rcases List.mem_cons.mp hm with h1 | h1
      · exact Or.inr h1
      · exact Or.inl (List.mem_cons_of_mem _ h1)
    · simp only [setField, if_neg h] at hm
      rcases List.mem_cons.mp hm with h1 | h1
      · exact Or.inl (by rw [h1]; exact List.mem_cons_self _ _)
      · rcases ih h1 with h2 | h2
        · exact Or.inl (List.mem_cons_of_mem _ h2)
        · exact Or.inr h2

lemma mem_buildRow_fold (columns : List String) (kv : String × String) :
    ∀ (pairs : List (ℕ × String)) (row0 : List (String × String)),
      kv ∈ pairs.foldl (fun row p => setField row (trimStr p.2) (getCol columns p.1)) row0 →
      kv ∈ row0 ∨ ∃ i, kv.2 = getCol columns i := by
  intro pairs
  induction pairs with
  | nil => intro row0 hm; exact Or.inl hm
  | cons p ps ih =>
    intro row0 hm
    simp only [List.foldl_cons] at hm
    rcases ih _ hm with h2 | h2
    · rcases mem_setField _ _ kv row0 h2 with h3 | h3
      · exact Or.inl h3
      · exact Or.inr ⟨p.1, by rw [h3]⟩
    · exact Or.inr h2

lemma getD_map_stripQuotes (l : List String) :
    ∀ i : ℕ, (l.map stripQuotes).getD i "" = stripQuotes (l.getD i "") := by
  induction l with
  | nil => intro i; rfl
  | cons a rest ih =>
    intro i
    cases i with
    | zero => rfl
    | succ j => simpa using ih j

/-- C9 (amended): every field value produced by `parseCSV` for a non-blank
data line is obtained by removing EVERY quote and apostrophe character of
some raw comma-separated cell of that line — interior occurrences included —
and then trimming surrounding whitespace (a missing trailing cell behaves
like the empty cell). -/
theorem parser_strips_all_quotes (data : String) (rows : List (List (String × String)))
    (row : List (String × String)) (kv : String × String)
    (hp : parseCSV data = .ok rows) (hr : row ∈ rows) (hkv : kv ∈ row) :
    ∃ line i, line ∈ (splitChar (Char.ofNat 10) data).filter (fun l => ¬(trimStr l = "")) ∧
      kv.2 = trimStr (stripQuotes ((splitChar (Char.ofNat 44) line).getD i "")) := by
  simp only [parseCSV] at hp
  rcases hL : (splitChar (Char.ofNat 10) data).filter (fun l => ¬(trimStr l = "")) with
    _ | ⟨l0, rest⟩
  · rw [hL] at hp
    exact absurd hp (by simp)
  · rw [hL] at hp
    injection hp with hp
    subst hp
    rcases List.mem_map.mp hr with ⟨line, hline, hrow⟩
    subst hrow
    rcases mem_buildRow_fold _ kv _ _ hkv with h2 | h2
    · simp at h2
    · rcases h2 with ⟨i, hi⟩
      refine ⟨line, i, List.mem_cons_of_mem _ hline, ?_⟩
      rw [hi]
      simp only [getCol, getD_map_stripQuotes]

/-- Witness for C9's amended theorem at a one-cell report. -/
theorem parser_strips_all_quotes_witness :
    ∃ line i,
      line ∈ (splitChar (Char.ofNat 10) "h\nv").filter (fun l => ¬(trimStr l = "")) ∧
        (("h", "v") : String × String).2
          = trimStr (stripQuotes ((splitChar (Char.ofNat 44) line).getD i "")) :=
  parser_strips_all_quotes "h\nv" [[("h", "v")]] [("h", "v")] ("h", "v")
    (by decide) (by decide) (by decide)

/-- C9 (counterexample to the claim as stated): on the data line
` "ab"cd" ` the parser yields the value `abcd` — the interior quote is
removed as well, not only the surrounding quotes — whereas the claim
requires the interior characters to survive as `ab"cd`. -/
theorem parser_removes_interior_quotes :
    parseCSV "name\n \"ab\"cd\" " = .ok [[("name", "abcd")]] ∧
      ¬(("abcd" : String) = "ab\"cd") := by
  constructor
  · decide
  · decide

/-! ## The aggregation pass is a sum of per-record deltas (shift lemmas) -/

lemma ammoLines_fold_shift (ammo : String) (fees : List (String × ℚ)) (lines : List InvoiceLine) :
    ∀ st : ℚ × ℚ,
      lines.foldl (fun s line =>
        if ¬(line.productId = ammo) then (s.1 + line.amount, s.2 + lookupFee fees line.productId)
        else s) st
      = (st.1 + (lines.foldl (fun s line =>
          if ¬(line.productId = ammo) then (s.1 + line.amount, s.2 + lookupFee fees line.productId)
          else s) (0, 0)).1,
        st.2 + (lines.foldl (fun s line =>
          if ¬(line.productId = ammo) then (s.1 + line.amount, s.2 + lookupFee fees line.productId)
          else s) (0, 0)).2) := by
  induction lines with
  | nil => intro st; simp
  | cons line rest ih =>
    intro st
    simp only [List.foldl_cons]
    by_cases hl : line.productId = ammo
    · simp only [hl, not_true, if_false]
      exact ih st
    · simp only [if_pos hl]
      rw [ih (st.1 + line.amount, st.2 + lookupFee fees line.productId),
        ih ((0 : ℚ) + line.amount, (0 : ℚ) + lookupFee fees line.productId)]
      simp only [Prod.mk.injEq]
      constructor <;> ring

lemma aggStep_shift (lookup : Lookup) (ammo : String) (ids : List String)
    (st : ℚ × ℚ) (r : SettlementRecord) :
    aggStep lookup ammo ids st r
      = (st.1 + (aggStep lookup ammo ids (0, 0) r).1,
         st.2 + (aggStep lookup ammo ids (0, 0) r).2) := by
  unfold aggStep
  by_cases h1 : shouldIgnoreCustomer r.customerEmail
  · simp [h1]
  · simp only [h1, Bool.false_eq_true, if_false]
    by_cases h2 : r.customerId = ""
    · simp [h2]
    · simp only [h2, if_false]
      by_cases h3 : ids.contains r.customerId
      · simp only [h3, if_true]
        by_cases h4 : (getProductFees lookup r.customerId r.fee ammo).hasExcludedProduct
        · simp only [h4, Bool.not_true, Bool.false_eq_true, if_false]
          cases hinv : (getProductFees lookup r.customerId r.fee ammo).invoice with
          | none => simp
          | some invoice =>
            simp only []
            rw [ammoLines_fold_shift ammo _ invoice.lines (st.1, st.2 + r.fee),
              ammoLines_fold_shift ammo _ invoice.lines ((0 : ℚ), (0 : ℚ) + r.fee)]
            simp only [Prod.mk.injEq]
            constructor <;> ring
        · simp only [Bool.not_eq_true] at h4
          simp [h4]
          ring
      · have h3m : ¬(r.customerId ∈ ids) := by simpa using h3
        simp [h3m]

lemma aggPass_shift (lookup : Lookup) (ammo : String) (ids : List String)
    (rows : List SettlementRecord) :
    ∀ st : ℚ × ℚ,
      aggPass lookup ammo ids rows st
        = (st.1 + (aggPass lookup ammo ids rows (0, 0)).1,
           st.2 + (aggPass lookup ammo ids rows (0, 0)).2) := by
  induction rows with
  | nil => intro st; simp [aggPass]
  | cons r rest ih =>
    intro st
    simp only [aggPass, List.foldl_cons] at ih ⊢
    rw [aggStep_shift lookup ammo ids st r, ih (st.1 + _, st.2 + _),
      aggStep_shift lookup ammo ids (0, 0) r, ih ((0 : ℚ) + _, (0 : ℚ) + _)]
    simp only [Prod.mk.injEq]
    constructor <;> ring

/-! ## The second pass of `src/calc.js` subtracts exactly `ammoSubCalc` -/

lemma ammoAdd_fold_shift (ammo : String) (lines : List InvoiceLine) :
    ∀ a : ℚ,
      lines.foldl (fun b line => if line.productId = ammo then b + line.amount else b) a
        = a + lines.foldl (fun b line => if line.productId = ammo then b + line.amount else b) 0 := by
  induction lines with
  | nil => intro a; simp
  | cons line rest ih =>
    intro a
    simp only [List.foldl_cons]
    rw [ih (if line.productId = ammo then a + line.amount else a),
      ih (if line.productId = ammo then (0 : ℚ) + line.amount else 0)]
    by_cases hl : line.productId = ammo <;> simp [hl] <;> ring

lemma ammoSub_fold_eq (ammo : String) (lines : List InvoiceLine) :
    ∀ a : ℚ,
      lines.foldl (fun b line => if line.productId = ammo then b - line.amount else b) a
        = a - lines.foldl (fun b line => if line.productId = ammo then b + line.amount else b) 0 := by
  induction lines with
  | nil => intro a; simp
  | cons line rest ih =>
    intro a
    simp only [List.foldl_cons]
    rw [ih (if line.productId = ammo then a - line.amount else a),
      ammoAdd_fold_shift ammo rest (if line.productId = ammo then (0 : ℚ) + line.amount else 0)]
    by_cases hl : line.productId = ammo <;> simp [hl] <;> ring

lemma pass2Step_eq_delta (lookup : Lookup) (ammo : String) (ids : List String)
    (acc : ℚ) (r : SettlementRecord) :
    pass2Step lookup ammo ids acc r
      = (pass2Delta lookup ammo ids r).map (fun d => acc - d) := by
  unfold pass2Step pass2Delta
  by_cases h1 : shouldIgnoreCustomer r.customerEmail
  · simp [h1, Except.map]
  · simp only [h1, Bool.false_eq_true, if_false]
    by_cases h2 : r.customerId = ""
    · simp [h2, Except.map]
    · simp only [h2, if_false]
      by_cases h3 : ids.contains r.customerId
      · simp only [h3, if_true]
        cases lookup r.customerId with
        | error e => simp [Except.map]
        | ok invs =>
          cases invs with
          | nil => simp [Except.map]
          | cons invoice tl =>
            by_cases h4 : invoice.lines.any (fun line => line.productId = ammo)
            · simp only [h4, if_true, Except.map]
              rw [ammoSub_fold_eq ammo invoice.lines acc]
            · simp [h4, Except.map]
      · have h3m : ¬(r.customerId ∈ ids) := by simpa using h3
        simp [h3m, Except.map]

lemma pass2Calc_eq_sub (lookup : Lookup) (ammo : String) (ids : List String)
    (rows : List SettlementRecord) :
    ∀ acc sub : ℚ,
      pass2Calc lookup ammo ids rows acc
        = (ammoSubCalc lookup ammo ids rows sub).map (fun s => acc - (s - sub)) := by
  induction rows with
  | nil => intro acc sub; simp [pass2Calc, ammoSubCalc, Except.map]
  | cons r rest ih =>
    intro acc sub
    simp only [pass2Calc, ammoSubCalc, pass2Step_eq_delta lookup ammo ids acc r]
    cases pass2Delta lookup ammo ids r with
    | error e => simp [Except.map]
    | ok d =>
      simp only [Except.map]
      rw [ih (acc - d) (sub + d)]
      have hfe : (fun s : ℚ => acc - d - (s - (sub + d))) = (fun s : ℚ => acc - (s - sub)) := by
        funext s
        ring
      rw [hfe]
      cases ammoSubCalc lookup ammo ids rest (sub + d) with
      | error e => rfl
      | ok s => rfl

/-! ## The part_000 ammo pass conserves `bigCommerceGross + ammoProductsTotal` -/

lemma lines000_sum (ammo : String) (lines : List InvoiceLine) :
    ∀ st : ℚ × ℚ,
      (lines.foldl (fun s line =>
        if line.productId = ammo then (s.1 - line.amount / 100, s.2 + line.amount / 100)
        else s) st).1
        + (lines.foldl (fun s line =>
            if line.productId = ammo then (s.1 - line.amount / 100, s.2 + line.amount / 100)
            else s) st).2
      = st.1 + st.2 := by
  induction lines with
  | nil => intro st; simp
  | cons line rest ih =>
    intro st
    simp only [List.foldl_cons]
    by_cases hl : line.productId = ammo
    · simp only [hl, if_true]
      rw [ih (st.1 - line.amount / 100, st.2 + line.amount / 100)]
      ring
    · simp only [hl, if_false]
      exact ih st

lemma pass2Step000_sum (lookup : Lookup) (ammo : String) (ids : List String)
    (st st2 : ℚ × ℚ) (r : SettlementRecord)
    (h : pass2Step000 lookup ammo ids st r = .ok st2) :
    st2.1 + st2.2 = st.1 + st.2 := by
  unfold pass2Step000 at h
  by_cases h1 : (shouldIgnoreCustomer r.customerEmail || ids.contains r.customerId) = true
  · rw [if_pos h1] at h
    injection h with h
    rw [← h]
  · rw [if_neg h1] at h
    by_cases h2 : r.customerId = ""
    · rw [if_pos h2] at h
      injection h with h
      rw [← h]
    · rw [if_neg h2] at h
      cases hlk : lookup r.customerId with
      | error e => rw [hlk] at h; cases h
      | ok invs =>
        rw [hlk] at h
        cases invs with
        | nil => injection h with h; rw [← h]
        | cons invoice tl =>
          by_cases h4 : invoice.lines.any (fun line => line.productId = ammo)
          · simp only [h4, if_true] at h
            injection h with h
            rw [← h]
            exact lines000_sum ammo invoice.lines st
          · simp only [h4, Bool.false_eq_true, if_false] at h
            injection h with h
            rw [← h]

lemma pass2_000_sum (lookup : Lookup) (ammo : String) (ids : List String)
    (rows : List SettlementRecord) :
    ∀ st res : ℚ × ℚ, pass2_000 lookup ammo ids rows st = .ok res →
      res.1 + res.2 = st.1 + st.2 := by
  induction rows with
  | nil =>
    intro st res h
    injection h with h
    rw [← h]
  | cons r rest ih =>
    intro st res h
    simp only [pass2_000] at h
    cases hstep : pass2Step000 lookup ammo ids st r with
    | error e => rw [hstep] at h; cases h
    | ok st1 =>
      rw [hstep] at h
      rw [ih st1 res h]
      exact pass2Step000_sum lookup ammo ids st st1 r hstep

lemma tfi_eq_neg_sum : ∀ rows : List SettlementRecord,
    totalFeeInitial rows = -((rows.map (fun r => r.fee)).sum) := by
  intro rows
  induction rows with
  | nil => rfl
  | cons r rest ih =>
    simp only [totalFeeInitial, List.foldl_cons, List.map_cons, List.sum_cons] at ih ⊢
    rw [tfi_shift rest (0 - r.fee), ih]
    ring

/-- C6 (amended): the exact subtraction identity holds with the ammo
adjustment defined as the total the second pass actually subtracts: in
`src/calc.js`, `bigCommerceGrossSales + exclusionBucketGross + ammoSubCalc =
grossBeforeFees`, where the second pass visits EXCLUSION-LIST records; in
`part_000`, `bigCommerceGross + nonBigCommerceGross + ammoProductsTotal =
allTransactionsGross`, where the ammo pass visits platform records as the
claim says (with line amounts divided by 100). -/
theorem platform_gross_subtraction_identity :
    (∀ (lookup : Lookup) (ammo : String) (ids : List String)
        (rows : List SettlementRecord) (out : CalcOutput) (s : ℚ),
      mainCalc lookup ammo ids rows = .ok out →
        ammoSubCalc lookup ammo ids rows 0 = .ok s →
        out.bigCommerceGrossSales + (aggPass lookup ammo ids rows (0, 0)).1 + s
          = out.grossBeforeFees) ∧
      (∀ (lookup : Lookup) (ammo : String) (ids : List String)
          (rows : List SettlementRecord) (out : Output000),
        main000 lookup ammo ids rows = .ok out →
          out.bigCommerceGross + out.nonBigCommerceGross + out.ammoProductsTotal
            = out.allTransactionsGross) := by
  constructor
  · intro lookup ammo ids rows out s hmain hsub
    simp only [mainCalc] at hmain
    rw [pass2Calc_eq_sub lookup ammo ids rows
      (grossAmountBeforeFees rows
        - (aggPass lookup ammo ids rows (0, totalFeeInitial rows)).1) 0, hsub] at hmain
    simp only [Except.map] at hmain
    injection hmain with h
    subst h
    dsimp only
    rw [aggPass_shift lookup ammo ids rows (0, totalFeeInitial rows)]
    dsimp only
    ring
  · intro lookup ammo ids rows out hmain
    simp only [main000] at hmain
    cases hp : pass2_000 lookup ammo ids rows
        (grossAmountBeforeFees rows - (rows.foldl (aggStep000 ids) (0, 0)).1, 0) with
    | error e => rw [hp] at hmain; cases hmain
    | ok st2 =>
      rw [hp] at hmain
      injection hmain with h
      subst h
      dsimp only
      have hsum := pass2_000_sum lookup ammo ids rows _ st2 hp
      dsimp only at hsum
      linarith

/-- Witness for C6's amended theorem: both identities at concrete inputs. -/
theorem platform_gross_subtraction_identity_witness :
    mainCalc (fun _ => .ok []) "x" ["c1"] [⟨"c1", "", "charge", 100, -3⟩]
        = .ok ⟨100, 103, 0, 6⟩ ∧
      ammoSubCalc (fun _ => .ok []) "x" ["c1"] [⟨"c1", "", "charge", 100, -3⟩] 0 = .ok 0 ∧
      (CalcOutput.mk 100 103 0 6).bigCommerceGrossSales
          + (aggPass (fun _ => .ok []) "x" ["c1"] [⟨"c1", "", "charge", 100, -3⟩] (0, 0)).1 + 0
        = (CalcOutput.mk 100 103 0 6).grossBeforeFees ∧
      main000 (fun _ => .ok []) "x" [] [⟨"", "", "charge", 100, -3⟩]
        = .ok ⟨100, 103, 100, -3, 0, 0, 6⟩ ∧
      (Output000.mk 100 103 100 (-3) 0 0 6).bigCommerceGross
          + (Output000.mk 100 103 100 (-3) 0 0 6).nonBigCommerceGross
          + (Output000.mk 100 103 100 (-3) 0 0 6).ammoProductsTotal
        = (Output000.mk 100 103 100 (-3) 0 0 6).allTransactionsGross := by
  have h1 : mainCalc (fun _ => .ok []) "x" ["c1"] [⟨"c1", "", "charge", 100, -3⟩]
      = .ok ⟨100, 103, 0, 6⟩ := by
    simp [mainCalc, aggPass, aggStep, shouldIgnoreCustomer, getProductFees, pass2Calc,
      pass2Step, grossAmountBeforeFees, negativeGrossSum, totalFeeInitial, netBalanceChange,
      List.contains, List.elem]
    norm_num
  have h2 : ammoSubCalc (fun _ => .ok []) "x" ["c1"] [⟨"c1", "", "charge", 100, -3⟩] 0
      = .ok 0 := by
    simp [ammoSubCalc, pass2Delta, shouldIgnoreCustomer, List.contains, List.elem]
  have h3 : main000 (fun _ => .ok []) "x" [] [⟨"", "", "charge", 100, -3⟩]
      = .ok ⟨100, 103, 100, -3, 0, 0, 6⟩ := by
    simp [main000, aggStep000, pass2_000, pass2Step000, shouldIgnoreCustomer,
      grossAmountBeforeFees, negativeGrossSum, totalFeeInitial, netBalanceChange,
      List.contains, List.elem]
    norm_num
  exact ⟨h1, h2,
    platform_gross_subtraction_identity.1 (fun _ => .ok []) "x" ["c1"]
      [⟨"c1", "", "charge", 100, -3⟩] ⟨100, 103, 0, 6⟩ 0 h1 h2,
    h3,
    platform_gross_subtraction_identity.2 (fun _ => .ok []) "x" []
      [⟨"", "", "charge", 100, -3⟩] ⟨100, 103, 100, -3, 0, 0, 6⟩ h3⟩

/-- C6 (counterexample to the claim as stated): with one exclusion-list
record whose invoice contains an ammo line of amount 40, `src/calc.js`
subtracts that 40 in its second pass even though the record is NOT a
platform record: the claim's identity with the ammo adjustment computed on
platform records (here 0) gives `0 + 60 + 0 = 60`, which differs from
`grossBeforeFees = 100`. -/
theorem platform_gross_identity_claim_false :
    mainCalc (fun c => if c = "c1" then .ok [⟨[⟨"ammo", 1, 40⟩, ⟨"B", 1, 60⟩]⟩] else .ok [])
        "ammo" ["c1"] [⟨"c1", "", "charge", 100, -3⟩]
      = .ok ⟨100, 103, 0, 89 / 2⟩ ∧
      (aggPass (fun c => if c = "c1" then .ok [⟨[⟨"ammo", 1, 40⟩, ⟨"B", 1, 60⟩]⟩] else .ok [])
          "ammo" ["c1"] [⟨"c1", "", "charge", 100, -3⟩] (0, 0)).1 = 60 ∧
      specAmmoAdjustmentOnPlatformRecords
          (fun c => if c = "c1" then .ok [⟨[⟨"ammo", 1, 40⟩, ⟨"B", 1, 60⟩]⟩] else .ok [])
          "ammo" ["c1"] [⟨"c1", "", "charge", 100, -3⟩] = 0 ∧
      ¬((0 : ℚ) + 60 + 0 = 100) := by
  refine ⟨?_, ?_, ?_, by norm_num⟩
  · simp [mainCalc, aggPass, aggStep, shouldIgnoreCustomer, getProductFees, pass2Calc,
      pass2Step, grossAmountBeforeFees, negativeGrossSum, totalFeeInitial, netBalanceChange,
      calculateProportionalFees, totalQuantity, setFee, lookupFee, List.find?,
      List.contains, List.elem]
    norm_num
  · simp [aggPass, aggStep, shouldIgnoreCustomer, getProductFees,
      calculateProportionalFees, totalQuantity, setFee, lookupFee, List.find?,
      List.contains, List.elem]
  · simp [specAmmoAdjustmentOnPlatformRecords, shouldIgnoreCustomer,
      List.contains, List.elem]

/-- C7 (amended): in `src/calc.js` the final figure satisfies
`bigCommerceNetDisbursed = netBalanceChange - exclusionBucketGross -
exclusionBucketFee + (sum of all CSV fee values)` — the subtracted `totalFee`
variable still carries the negated pre-pass fee sum on top of the bucket
accumulation; in `part_000` the claim's formula holds exactly as stated,
with the bucket totals being precisely the aggregation-pass accumulations. -/
theorem net_disbursed_formula :
    (∀ (lookup : Lookup) (ammo : String) (ids : List String)
        (rows : List SettlementRecord) (out : CalcOutput),
      mainCalc lookup ammo ids rows = .ok out →
        out.bigCommerceNetDisbursed
          = netBalanceChange rows - (aggPass lookup ammo ids rows (0, 0)).1
            - (aggPass lookup ammo ids rows (0, 0)).2 + (rows.map (fun r => r.fee)).sum) ∧
      (∀ (lookup : Lookup) (ammo : String) (ids : List String)
          (rows : List SettlementRecord) (out : Output000),
        main000 lookup ammo ids rows = .ok out →
          out.bigCommerceNet
              = netBalanceChange rows - out.nonBigCommerceGross - out.nonBigCommerceFees ∧
            out.nonBigCommerceGross = (rows.foldl (aggStep000 ids) (0, 0)).1 ∧
            out.nonBigCommerceFees = (rows.foldl (aggStep000 ids) (0, 0)).2) := by
  constructor
  · intro lookup ammo ids rows out hmain
    simp only [mainCalc] at hmain
    cases hp : pass2Calc lookup ammo ids rows
        (grossAmountBeforeFees rows
          - (aggPass lookup ammo ids rows (0, totalFeeInitial rows)).1) with
    | error e => rw [hp] at hmain; cases hmain
    | ok bgs =>
      rw [hp] at hmain
      injection hmain with h
      subst h
      dsimp only
      rw [aggPass_shift lookup ammo ids rows (0, totalFeeInitial rows)]
      dsimp only
      rw [tfi_eq_neg_sum rows]
      ring
  · intro lookup ammo ids rows out hmain
    simp only [main000] at hmain
    cases hp : pass2_000 lookup ammo ids rows
        (grossAmountBeforeFees rows - (rows.foldl (aggStep000 ids) (0, 0)).1, 0) with
    | error e => rw [hp] at hmain; cases hmain
    | ok st2 =>
      rw [hp] at hmain
      injection hmain with h
      subst h
      exact ⟨rfl, rfl, rfl⟩

/-- Witness for C7's amended theorem at concrete one-row reports. -/
theorem net_disbursed_formula_witness :
    mainCalc (fun _ => .ok []) "x" [] [⟨"", "", "charge", 100, -3⟩] = .ok ⟨100, 103, 0, 3⟩ ∧
      (CalcOutput.mk 100 103 0 3).bigCommerceNetDisbursed
        = netBalanceChange [⟨"", "", "charge", 100, -3⟩]
          - (aggPass (fun _ => .ok []) "x" [] [⟨"", "", "charge", 100, -3⟩] (0, 0)).1
          - (aggPass (fun _ => .ok []) "x" [] [⟨"", "", "charge", 100, -3⟩] (0, 0)).2
          + (([⟨"", "", "charge", 100, -3⟩] : List SettlementRecord).map (fun r => r.fee)).sum ∧
      main000 (fun _ => .ok []) "x" [] [⟨"", "", "charge", 100, -3⟩]
        = .ok ⟨100, 103, 100, -3, 0, 0, 6⟩ ∧
      (Output000.mk 100 103 100 (-3) 0 0 6).bigCommerceNet
        = netBalanceChange [⟨"", "", "charge", 100, -3⟩]
          - (Output000.mk 100 103 100 (-3) 0 0 6).nonBigCommerceGross
          - (Output000.mk 100 103 100 (-3) 0 0 6).nonBigCommerceFees := by
  have h1 : mainCalc (fun _ => .ok []) "x" [] [⟨"", "", "charge", 100, -3⟩]
      = .ok ⟨100, 103, 0, 3⟩ := by
    simp [mainCalc, aggPass, aggStep, shouldIgnoreCustomer, getProductFees, pass2Calc,
      pass2Step, grossAmountBeforeFees, negativeGrossSum, totalFeeInitial, netBalanceChange,
      List.contains, List.elem]
    norm_num
  have h3 : main000 (fun _ => .ok []) "x" [] [⟨"", "", "charge", 100, -3⟩]
      = .ok ⟨100, 103, 100, -3, 0, 0, 6⟩ := by
    simp [main000, aggStep000, pass2_000, pass2Step000, shouldIgnoreCustomer,
      grossAmountBeforeFees, negativeGrossSum, totalFeeInitial, netBalanceChange,
      List.contains, List.elem]
    norm_num
  exact ⟨h1,
    net_disbursed_formula.1 (fun _ => .ok []) "x" [] [⟨"", "", "charge", 100, -3⟩]
      ⟨100, 103, 0, 3⟩ h1,
    h3,
    (net_disbursed_formula.2 (fun _ => .ok []) "x" [] [⟨"", "", "charge", 100, -3⟩]
      ⟨100, 103, 100, -3, 0, 0, 6⟩ h3).1⟩

/-- C7 (counterexample to the claim as stated): a single no-customer "charge"
row with gross 100 and fee -3 gives, in `src/calc.js`,
`bigCommerceNetDisbursed = 3`, while the claim's formula `netBalanceChange -
exclusionBucketGross - exclusionBucketFee = 103 - 100 - (-3) = 6` — the code
subtracts a `totalFee` that still contains the negated sum of all CSV fees. -/
theorem net_disbursed_claim_false :
    mainCalc (fun _ => .ok []) "x" [] [⟨"", "", "charge", 100, -3⟩] = .ok ⟨100, 103, 0, 3⟩ ∧
      aggPass (fun _ => .ok []) "x" [] [⟨"", "", "charge", 100, -3⟩] (0, 0) = (100, -3) ∧
      netBalanceChange [⟨"", "", "charge", 100, -3⟩] = 103 ∧
      ¬((3 : ℚ) = 103 - 100 - (-3)) := by
  refine ⟨?_, ?_, ?_, by norm_num⟩
  · simp [mainCalc, aggPass, aggStep, shouldIgnoreCustomer, getProductFees, pass2Calc,
      pass2Step, grossAmountBeforeFees, negativeGrossSum, totalFeeInitial, netBalanceChange,
      List.contains, List.elem]
    norm_num
  · simp [aggPass, aggStep, shouldIgnoreCustomer, List.contains, List.elem]
  · simp [netBalanceChange, grossAmountBeforeFees, negativeGrossSum, totalFeeInitial]
    norm_num

end StripeCalc
